import Mathlib

/-!
Verification of the Aussie_Property_Predictor retrieval and extraction pipeline.

The definitions below are a shallow embedding of `src/Domain_Parser.py` and
`src/Domain_Scraper.py`.  Python string primitives (`str.replace`, `str.strip`,
`str.split`, `str.isdigit`, `int`, slicing, substring tests) are modelled over
`List Char`; the two regular expressions used by the code
(`\d{1,2} \w{3} \d{4}`, `\b\d{4}\b$` and `\d+`) are modelled as executable
search functions with Python `re.search` semantics (leftmost match, greedy
`\d{1,2}`, `$` also matching before a single trailing newline).  HTML elements
located by CSS selectors are abstracted as the optional text they carry, and
the HTTP fetch layer as an oracle from request parameters to `Option String`
(`none` = the fetch failed after exhausting retries).
-/

/-! ## Python string primitives over `List Char` -/

/-- Python `pat in s` substring test, over char lists. -/
def listHasSub (pat : List Char) : List Char → Bool
  | [] => pat.isEmpty
  | c :: t => pat.isPrefixOf (c :: t) || listHasSub pat t

/-- Python `s.replace(pat, repl)`: replace every non-overlapping occurrence,
scanning left to right (for a non-empty pattern).  Fuel-based so that the
kernel can evaluate it; the fuel is instantiated with the list length, which
bounds the number of scanning steps. -/
def listReplace (pat repl : List Char) : Nat → List Char → List Char
  | 0, l => l
  | _ + 1, [] => []
  | fuel + 1, c :: t =>
    if pat ≠ [] ∧ pat.isPrefixOf (c :: t) then
      repl ++ listReplace pat repl fuel (t.drop (pat.length - 1))
    else
      c :: listReplace pat repl fuel t

/-- Python `s.replace(pat, repl)` on strings. -/
def pyReplace (s pat repl : String) : String :=
  String.mk (listReplace pat.toList repl.toList s.toList.length s.toList)

/-- Python `s.strip()`: remove leading and trailing whitespace. -/
def pyStrip (s : String) : String :=
  String.mk (((s.toList.dropWhile Char.isWhitespace).reverse.dropWhile
    Char.isWhitespace).reverse)

/-- Python `s.isdigit()` (restricted to ASCII digits): non-empty and all digits. -/
def pyIsDigit (s : String) : Bool :=
  !s.toList.isEmpty && s.toList.all Char.isDigit

/-- Python `int(s)` on a digit string: decimal value. -/
def pyInt (s : String) : Nat :=
  s.toList.foldl (fun a c => 10 * a + (c.toNat - Char.toNat '0')) 0

/-- Python `s[-n:]`: the last `n` characters (the whole string when shorter). -/
def pyTail (s : String) (n : Nat) : String :=
  String.mk (s.toList.drop (s.toList.length - n))

/-- Python `pat in s` on strings. -/
def strContains (s pat : String) : Bool :=
  listHasSub pat.toList s.toList

/-- Python `s.split()[0]` (empty when there is no token): first maximal run of
non-whitespace characters. -/
def splitHead (s : String) : String :=
  String.mk ((s.toList.dropWhile Char.isWhitespace).takeWhile
    (fun c => !c.isWhitespace))

/-- Python truthiness of a string: non-empty. -/
def pyTruthy (s : String) : Bool :=
  !s.toList.isEmpty

/-- Word character for the regex `\b` boundary (ASCII `\w`). -/
def isWordChar (c : Char) : Bool :=
  c.isAlphanum || c = '_'

/-! ## Regex `\d{1,2} \w{3} \d{4}` (Domain_Parser.py line 66) -/

/-- Full-string match of the two-leading-digit form `\d{2} \w{3} \d{4}`. -/
def date2shape (m : List Char) : Bool :=
  match m with
  | [a, b, c, w1, w2, w3, d, y1, y2, y3, y4] =>
    a.isDigit && b.isDigit && c = ' ' && isWordChar w1 && isWordChar w2 &&
      isWordChar w3 && d = ' ' && y1.isDigit && y2.isDigit && y3.isDigit &&
      y4.isDigit
  | _ => false

/-- Full-string match of the one-leading-digit form `\d{1} \w{3} \d{4}`. -/
def date1shape (m : List Char) : Bool :=
  match m with
  | [a, c, w1, w2, w3, d, y1, y2, y3, y4] =>
    a.isDigit && c = ' ' && isWordChar w1 && isWordChar w2 && isWordChar w3 &&
      d = ' ' && y1.isDigit && y2.isDigit && y3.isDigit && y4.isDigit
  | _ => false

/-- A string matching the date pattern `\d{1,2} \w{3} \d{4}` exactly. -/
def isDatePattern (m : List Char) : Bool :=
  date2shape m || date1shape m

/-- Match of the date regex anchored at the head of `l`, two-digit day first
(greedy `\d{1,2}`). -/
def matchDate2 (l : List Char) : Option (List Char) :=
  match l with
  | a :: b :: c :: w1 :: w2 :: w3 :: d :: y1 :: y2 :: y3 :: y4 :: _ =>
    if date2shape [a, b, c, w1, w2, w3, d, y1, y2, y3, y4] then
      some [a, b, c, w1, w2, w3, d, y1, y2, y3, y4]
    else none
  | _ => none

/-- Match of the one-digit-day form anchored at the head of `l`. -/
def matchDate1 (l : List Char) : Option (List Char) :=
  match l with
  | a :: c :: w1 :: w2 :: w3 :: d :: y1 :: y2 :: y3 :: y4 :: _ =>
    if date1shape [a, c, w1, w2, w3, d, y1, y2, y3, y4] then
      some [a, c, w1, w2, w3, d, y1, y2, y3, y4]
    else none
  | _ => none

/-- Regex attempt at one start position: greedy two-digit day, then backtrack
to the one-digit day. -/
def matchDateAt (l : List Char) : Option (List Char) :=
  match matchDate2 l with
  | some m => some m
  | none => matchDate1 l

/-- Python `re.search` for `\d{1,2} \w{3} \d{4}`: leftmost match. -/
def searchDate : List Char → Option (List Char)
  | [] => none
  | c :: t =>
    match matchDateAt (c :: t) with
    | some m => some m
    | none => searchDate t

/-! ## Regex `\b\d{4}\b$` (Domain_Parser.py line 25) -/

/-- Candidate match of `\b\d{4}\b` ending exactly at the end of `l`: the last
four characters are digits and the character before them (if any) is not a
word character. -/
def pcCandidate (l : List Char) : Option (List Char) :=
  let n := l.length
  if 4 ≤ n then
    let ds := l.drop (n - 4)
    if ds.all Char.isDigit && (decide (n = 4) || !isWordChar (l.getD (n - 5) ' ')) then
      some ds
    else none
  else none

/-- Python `re.search` for `\b\d{4}\b$`: `$` matches at the end of the string
and also just before a single trailing newline; the leftmost (newline) start
position is preferred. -/
def postcodeSearch (s : String) : Option String :=
  let l := s.toList
  match (if l.getLast? = some '\n' then pcCandidate l.dropLast else none) with
  | some m => some (String.mk m)
  | none => (pcCandidate l).map String.mk

/-! ## Regex `\d+` (Domain_Parser.py line 171) -/

/-- Python `re.search` for `\d+`: first maximal digit run. -/
def digitRunSearch : List Char → Option (List Char)
  | [] => none
  | c :: t =>
    if c.isDigit then some (c :: t.takeWhile Char.isDigit)
    else digitRunSearch t

/-! ## Domain_Parser.py field extractors -/

/-- `parse_address` (Domain_Parser.py lines 7-38): strip the encoding artifact,
then postcode = last four characters when all digits, else the `\b\d{4}\b$`
regex match, else null. -/
def parse_address (address : String) : String × Option String :=
  let a := pyReplace address "Â" ""
  let last4 := pyTail a 4
  let postcode : Option String :=
    if pyIsDigit last4 then some last4
    else
      match postcodeSearch a with
      | some m => some m
      | none => none
  (a, postcode)

/-- `parse_sale_info` (Domain_Parser.py lines 41-80), taking the text of the
sale-info element when present.  Returns (sale_type, sale_date). -/
def parse_sale_info (elemText : Option String) : Option String × Option String :=
  match elemText with
  | none => (none, none)
  | some raw =>
    let t := pyStrip raw
    match searchDate t.toList with
    | some d =>
      let ds := String.mk d
      (some (pyStrip (pyReplace t ds "")), some ds)
    | none => (some t, none)

/-- `parse_price` (Domain_Parser.py lines 83-109), taking the text of the price
element when present: strip `$`, `,` and whitespace; integer value only when
the residue is purely digits. -/
def parse_price (elemText : Option String) : Option Nat :=
  match elemText with
  | none => none
  | some t =>
    let s := pyStrip (pyReplace (pyReplace t "$" "") "," "")
    if pyIsDigit s then some (pyInt s) else none

/-- The four property-detail fields of Domain_Parser.py lines 112-175. -/
structure Details where
  bedrooms : Option Nat
  baths : Option Nat
  parking : Option Nat
  area : Option Nat
deriving DecidableEq

/-- Numeric extraction `int(text.split()[0]) if text.split()[0].isdigit() else None`. -/
def countToken (s : String) : Option Nat :=
  if pyIsDigit (splitHead s) then some (pyInt (splitHead s)) else none

/-- Area extraction `re.search(r"\d+", text)` then `int` of the match. -/
def areaToken (s : String) : Option Nat :=
  (digitRunSearch s.toList).map (fun l => pyInt (String.mk l))

/-- One iteration of the feature-chip loop (Domain_Parser.py lines 137-172):
an `elif` chain keyed on substring containment. -/
def detailsStep (d : Details) (txt : String) : Details :=
  if strContains txt "Beds" then { d with bedrooms := countToken txt }
  else if strContains txt "Bath" then { d with baths := countToken txt }
  else if strContains txt "Parking" then { d with parking := countToken txt }
  else if strContains txt "m²" then { d with area := areaToken txt }
  else d

/-- `parse_property_details` (Domain_Parser.py lines 112-175) over the texts of
the feature chips. -/
def parse_property_details (chips : List String) : Details :=
  chips.foldl detailsStep ⟨none, none, none, none⟩

/-- `parse_sales_page` (Domain_Parser.py lines 178-199): `none` when the anchor
element is absent; otherwise its `href` attribute, defaulting to `"N/A"`. -/
def parse_sales_page (elem : Option (Option String)) : Option String :=
  match elem with
  | none => none
  | some attr => some (attr.getD "N/A")

/-! ## parse_html (Domain_Parser.py lines 202-263) -/

/-- The dictionary built by `parse_html`: ten independently nullable fields. -/
structure ExtractedData where
  sale_type : Option String
  sale_date : Option String
  price : Option Nat
  address : Option String
  postcode : Option String
  bedrooms : Option Nat
  baths : Option Nat
  parking : Option Nat
  area : Option Nat
  sales_page_href : Option String
deriving DecidableEq

/-- The all-null initial dictionary of Domain_Parser.py lines 217-228. -/
def emptyExtracted : ExtractedData :=
  ⟨none, none, none, none, none, none, none, none, none, none⟩

/-- One parsed markup page, abstracted to the text carried by the elements the
CSS selectors of Domain_Parser.py locate: `none` models a selector miss. -/
structure Html where
  saleInfoElem : Option String
  priceElem : Option String
  addressElem : Option String
  featureChips : List String
  salesPageElem : Option (Option String)

/-- `parse_html` (Domain_Parser.py lines 202-263).  The body is a `try` block
that fills the dictionary step by step; `failAt = some k` models an unexpected
exception raised inside step `k` (0 = sale info, 1 = price, 2 = address,
3 = property details, 4 = sales page): the `except` clause logs it and
returns the dictionary as accumulated so far.  `failAt = none` (or an index
past 4) is the run in which no exception occurs. -/
def parse_html (html : Html) (failAt : Option Nat) : ExtractedData :=
  let d := emptyExtracted
  if failAt = some 0 then d else
  let si := parse_sale_info html.saleInfoElem
  let d := { d with sale_type := si.1, sale_date := si.2 }
  if failAt = some 1 then d else
  let d := { d with price := parse_price html.priceElem }
  if failAt = some 2 then d else
  let d :=
    match html.addressElem with
    | some a =>
      let ap := parse_address a
      { d with address := some ap.1, postcode := ap.2 }
    | none => d
  if failAt = some 3 then d else
  let pd := parse_property_details html.featureChips
  let d := { d with bedrooms := pd.bedrooms, baths := pd.baths,
                    parking := pd.parking, area := pd.area }
  if failAt = some 4 then d else
  { d with sales_page_href := parse_sales_page html.salesPageElem }

/-! ## Domain_Scraper.py -/

/-- Result of one `fetch_property_data` call: final value, number of GET
requests issued, and the backoff delays slept (in seconds, as rationals). -/
structure FetchResult where
  value : Option String
  requests : Nat
  delays : List ℚ
deriving DecidableEq

/-- The retry loop of `fetch_property_data` (Domain_Scraper.py lines 20-47).
`result a` is the outcome of the GET issued while the attempt counter equals
`a` (`none` = transport error or non-success status); `jitter a` is the value
of `random() * 0.1` drawn for the backoff computed after incrementing the
counter to `a`.  The remaining iteration budget is `retries - attempt`. -/
def fetchRun (result : Nat → Option String) (jitter : Nat → ℚ) :
    Nat → Nat → FetchResult
  | 0, _ => ⟨none, 0, []⟩
  | r + 1, a =>
    match result a with
    | some t => ⟨some t, 1, []⟩
    | none =>
      let rest := fetchRun result jitter r (a + 1)
      ⟨rest.value, rest.requests + 1, (2 ^ (a + 1) + jitter (a + 1)) :: rest.delays⟩

/-- `fetch_property_data` (Domain_Scraper.py lines 8-47) with its attempt
counter starting at 0. -/
def fetch_property_data (result : Nat → Option String) (jitter : Nat → ℚ)
    (retries : Nat) : FetchResult :=
  fetchRun result jitter retries 0

/-- The literal no-results marker checked at Domain_Scraper.py line 83. -/
def hasMarker (txt : String) : Bool :=
  strContains txt "No exact matches"

/-- The page loop of `fetch_postcode_data` (Domain_Scraper.py lines 71-91) for
one (beds, bath, park) combination: `f page` is the fetch outcome for that
page.  Returns the markup texts appended to `property_html`, in order.  A
falsy response (null or empty) is skipped; a truthy response containing the
marker stops the loop; any other truthy response is appended. -/
def pagesLoop (f : Nat → Option String) : Nat → Nat → List String
  | 0, _ => []
  | fuel + 1, page =>
    match f page with
    | none => pagesLoop f fuel (page + 1)
    | some txt =>
      if pyTruthy txt then
        if hasMarker txt then []
        else txt :: pagesLoop f fuel (page + 1)
      else pagesLoop f fuel (page + 1)

/-- The same page loop, recording the pages for which a fetch is issued rather
than the texts collected. -/
def pagesRequested (f : Nat → Option String) : Nat → Nat → List Nat
  | 0, _ => []
  | fuel + 1, page =>
    page ::
      (match f page with
       | none => pagesRequested f fuel (page + 1)
       | some txt =>
         if pyTruthy txt && hasMarker txt then []
         else pagesRequested f fuel (page + 1))

/-- `fetch_postcode_data` (Domain_Scraper.py lines 50-94) for one postcode:
beds 1-5, baths 0-5, parking 0-5, pages 1-49 per combination; `f` is the fetch
oracle indexed by (beds, bath, park, page). -/
def fetch_postcode_data (f : Nat → Nat → Nat → Nat → Option String) : List String :=
  (List.range' 1 5).flatMap fun beds =>
    (List.range 6).flatMap fun bath =>
      (List.range 6).flatMap fun park =>
        pagesLoop (f beds bath park) 49 1

/-! ## Persistence (Domain_Parser.py lines 266-313) -/

/-- An SQLite storage value. -/
inductive SqlValue where
  | null : SqlValue
  | intV : Int → SqlValue
  | textV : String → SqlValue
deriving DecidableEq

/-- SQLite INTEGER column affinity, restricted to the values this pipeline
inserts: a text value that is a pure digit string is stored as the integer it
denotes; other values are stored unchanged. -/
def integerAffinity (v : SqlValue) : SqlValue :=
  match v with
  | SqlValue.textV s =>
    if pyIsDigit s then SqlValue.intV (pyInt s) else SqlValue.textV s
  | v => v

/-- SQLite TEXT column affinity: numbers are stored as their decimal text. -/
def textAffinity (v : SqlValue) : SqlValue :=
  match v with
  | SqlValue.intV n => SqlValue.textV (toString n)
  | v => v

/-- Column affinities of the ten non-identity columns of the `Domain` table
(Domain_Parser.py lines 277-289): sale_type TEXT, sale_date TEXT, price
INTEGER, address TEXT, postcode INTEGER, bedrooms INTEGER, baths INTEGER,
parking INTEGER, area INTEGER, sales_page_href TEXT. -/
def domainAffinities : List (SqlValue → SqlValue) :=
  [textAffinity, textAffinity, integerAffinity, textAffinity, integerAffinity,
   integerAffinity, integerAffinity, integerAffinity, integerAffinity,
   textAffinity]

/-- Apply each column's affinity to an inserted row. -/
def applyAffinities (vals : List SqlValue) : List SqlValue :=
  List.zipWith (fun g v => g v) domainAffinities vals

/-- The `Domain` table: rows of (autoincrement id, ten stored values). -/
structure DomainTable where
  rows : List (Nat × List SqlValue)
deriving DecidableEq

/-- `create_table` (Domain_Parser.py lines 266-291): CREATE TABLE IF NOT
EXISTS — a fresh empty table when absent, the existing table unchanged. -/
def create_table (db : Option DomainTable) : DomainTable :=
  db.getD ⟨[]⟩

/-- The ten bound parameter values of the INSERT statement (Domain_Parser.py
lines 304-313), in column order: Python `None` binds SQL NULL, `str` binds
text, `int` binds integer. -/
def toSqlRow (r : ExtractedData) : List SqlValue :=
  [(r.sale_type.map SqlValue.textV).getD SqlValue.null,
   (r.sale_date.map SqlValue.textV).getD SqlValue.null,
   (r.price.map (fun n => SqlValue.intV n)).getD SqlValue.null,
   (r.address.map SqlValue.textV).getD SqlValue.null,
   (r.postcode.map SqlValue.textV).getD SqlValue.null,
   (r.bedrooms.map (fun n => SqlValue.intV n)).getD SqlValue.null,
   (r.baths.map (fun n => SqlValue.intV n)).getD SqlValue.null,
   (r.parking.map (fun n => SqlValue.intV n)).getD SqlValue.null,
   (r.area.map (fun n => SqlValue.intV n)).getD SqlValue.null,
   (r.sales_page_href.map SqlValue.textV).getD SqlValue.null]

/-- One row insertion: the id is the next autoincrement value and each stored
value is the inserted value converted by its column's affinity. -/
def insertOne (db : DomainTable) (r : ExtractedData) : DomainTable :=
  ⟨db.rows ++ [(db.rows.length + 1, applyAffinities (toSqlRow r))]⟩

/-- `insert_data` (Domain_Parser.py lines 294-313): `executemany` inserts the
records one after the other. -/
def insert_data (db : DomainTable) (data : List ExtractedData) : DomainTable :=
  data.foldl insertOne db

/-- Reading the table back: `SELECT` returns the stored rows. -/
def selectRows (db : DomainTable) : List (Nat × List SqlValue) :=
  db.rows

/-- The rows produced by inserting `data` when the table already holds `base`
rows: ids continue the autoincrement sequence. -/
def rowsFrom (base : Nat) : List ExtractedData → List (Nat × List SqlValue)
  | [] => []
  | r :: rest => (base + 1, applyAffinities (toSqlRow r)) :: rowsFrom (base + 1) rest

/-- A record with every one of the ten fields populated. -/
def fullyPopulated (r : ExtractedData) : Bool :=
  r.sale_type.isSome && r.sale_date.isSome && r.price.isSome &&
    r.address.isSome && r.postcode.isSome && r.bedrooms.isSome &&
    r.baths.isSome && r.parking.isSome && r.area.isSome &&
    r.sales_page_href.isSome

/-! ## Helper lemmas -/

/-- A list is a Boolean prefix of itself followed by anything. -/
lemma isPrefixOf_append_self : ∀ (xs ys : List Char), xs.isPrefixOf (xs ++ ys) = true := by
  intro xs ys
  induction xs with
  | nil => simp [List.isPrefixOf]
  | cons a as ih => simp [List.isPrefixOf, ih]

/-- A Boolean prefix is an initial segment. -/
lemma isPrefixOf_exists_append :
    ∀ {xs ys : List Char}, xs.isPrefixOf ys = true → ∃ t, ys = xs ++ t := by
  intro xs
  induction xs with
  | nil => exact fun h => ⟨_, rfl⟩
  | cons a as ih =>
    intro ys h
    cases ys with
    | nil => simp [List.isPrefixOf] at h
    | cons b bs =>
      simp only [List.isPrefixOf, Bool.and_eq_true, beq_iff_eq] at h
      obtain ⟨t, ht⟩ := ih h.2
      exact ⟨t, by simp [h.1, ht]⟩

/-- `pcCandidate` only returns runs of exactly four digits. -/
lemma pcCandidate_shape {l m : List Char} (h : pcCandidate l = some m) :
    m.length = 4 ∧ m.all Char.isDigit = true := by
  unfold pcCandidate at h
  dsimp only at h
  split at h
  · rename_i h4
    split at h
    · rename_i hc
      injection h with h
      subst h
      refine ⟨?_, ?_⟩
      · rw [List.length_drop]; omega
      · simp only [Bool.and_eq_true] at hc
        exact hc.1
    · exact Option.noConfusion h
  · exact Option.noConfusion h

/-- `postcodeSearch` only returns runs of exactly four digits. -/
lemma postcodeSearch_shape {s m : String} (h : postcodeSearch s = some m) :
    m.toList.length = 4 ∧ m.toList.all Char.isDigit = true := by
  unfold postcodeSearch at h
  dsimp only at h
  rcases hif : (if s.toList.getLast? = some '\n' then pcCandidate s.toList.dropLast
      else none) with _ | md
  · rw [hif] at h
    simp only [Option.map_eq_some'] at h
    obtain ⟨mc, hpc, hm⟩ := h
    subst hm
    exact pcCandidate_shape hpc
  · rw [hif] at h
    injection h with h
    subst h
    split at hif
    · exact pcCandidate_shape hif
    · exact Option.noConfusion hif

/-! ## Claim theorems -/

/-- C5: for every price text that, after removing `$` and `,` and trimming,
consists only of digits, price extraction returns exactly that integer value;
for any text with non-digit residue or an absent price element it returns
null; `"$1,250,000"` yields `1250000` and `"Contact Agent"` yields null. -/
theorem parse_price_digits_exact (t : String) :
    (pyIsDigit (pyStrip (pyReplace (pyReplace t "$" "") "," "")) = true →
      parse_price (some t) =
        some (pyInt (pyStrip (pyReplace (pyReplace t "$" "") "," "")))) ∧
    (pyIsDigit (pyStrip (pyReplace (pyReplace t "$" "") "," "")) = false →
      parse_price (some t) = none) ∧
    parse_price none = none ∧
    parse_price (some "$1,250,000") = some 1250000 ∧
    parse_price (some "Contact Agent") = none := by
  refine ⟨fun h => ?_, fun h => ?_, rfl, by decide, by decide⟩ <;>
    simp [parse_price, h]

/-- Witness for C5 at the spec's own examples. -/
theorem parse_price_digits_exact_witness :
    parse_price (some "$1,250,000") =
      some (pyInt (pyStrip (pyReplace (pyReplace "$1,250,000" "$" "") "," ""))) ∧
    parse_price (some "Contact Agent") = none :=
  ⟨(parse_price_digits_exact "$1,250,000").1 (by decide),
   (parse_price_digits_exact "Contact Agent").2.1 (by decide)⟩

/-- C6: for every address string, after stripping the encoding artifact, the
postcode is the trailing-four-character slice when it is all digits, else the
`\b\d{4}\b$` regex match (a run of exactly four digits anchored at the string
end), else null; `"12 Smith St, Ultimo 2007"` yields `"2007"`. -/
theorem parse_address_postcode_rules (addr : String) :
    (pyIsDigit (pyTail (pyReplace addr "Â" "") 4) = true →
      (parse_address addr).2 = some (pyTail (pyReplace addr "Â" "") 4)) ∧
    (pyIsDigit (pyTail (pyReplace addr "Â" "") 4) = false →
      (parse_address addr).2 = postcodeSearch (pyReplace addr "Â" "")) ∧
    (∀ m, postcodeSearch (pyReplace addr "Â" "") = some m →
      m.toList.length = 4 ∧ m.toList.all Char.isDigit = true) ∧
    (parse_address "12 Smith St, Ultimo 2007").2 = some "2007" := by
  refine ⟨fun h => ?_, fun h => ?_, fun m hm => postcodeSearch_shape hm, by decide⟩
  · simp [parse_address, h]
  · simp only [parse_address, h]
    cases hps : postcodeSearch (pyReplace addr "Â" "") <;> simp [hps]

/-- Witness for C6: the digit-slice branch at the spec's example and the
regex-fallback branch at an address with a trailing newline. -/
theorem parse_address_postcode_rules_witness :
    (parse_address "12 Smith St, Ultimo 2007").2 =
      some (pyTail (pyReplace "12 Smith St, Ultimo 2007" "Â" "") 4) ∧
    (parse_address "Ultimo 2007\n").2 =
      postcodeSearch (pyReplace "Ultimo 2007\n" "Â" "") ∧
    "2007".toList.length = 4 ∧ "2007".toList.all Char.isDigit = true :=
  ⟨(parse_address_postcode_rules "12 Smith St, Ultimo 2007").1 (by decide),
   (parse_address_postcode_rules "Ultimo 2007\n").2.1 (by decide),
   (parse_address_postcode_rules "Ultimo 2007\n").2.2.1 "2007" (by decide)⟩

/-- C8: a feature chip containing `"Beds"` with a pure-integer leading token
sets bedrooms to it, likewise `"Bath"` for baths and `"Parking"` for parking
(each branch guarded by the earlier keywords of the `elif` chain), a chip
containing `"m²"` sets area to the first digit run of its text, a numeric
extraction whose leading token is not a pure integer yields null, and a chip
matching no keyword changes nothing; `"3 Beds"` gives bedrooms 3, `"2 Bath"`
baths 2, `"120m²"` area 120. -/
theorem parse_property_details_classify :
    (∀ c, strContains c "Beds" = true → pyIsDigit (splitHead c) = true →
      parse_property_details [c] = ⟨some (pyInt (splitHead c)), none, none, none⟩) ∧
    (∀ c, strContains c "Beds" = true → pyIsDigit (splitHead c) = false →
      parse_property_details [c] = ⟨none, none, none, none⟩) ∧
    (∀ c, strContains c "Beds" = false → strContains c "Bath" = true →
      pyIsDigit (splitHead c) = true →
      parse_property_details [c] = ⟨none, some (pyInt (splitHead c)), none, none⟩) ∧
    (∀ c, strContains c "Beds" = false → strContains c "Bath" = false →
      strContains c "Parking" = true → pyIsDigit (splitHead c) = true →
      parse_property_details [c] = ⟨none, none, some (pyInt (splitHead c)), none⟩) ∧
    (∀ c, strContains c "Beds" = false → strContains c "Bath" = false →
      strContains c "Parking" = false → strContains c "m²" = true →
      parse_property_details [c] = ⟨none, none, none, areaToken c⟩) ∧
    (∀ d c, strContains c "Beds" = false → strContains c "Bath" = false →
      strContains c "Parking" = false → strContains c "m²" = false →
      detailsStep d c = d) ∧
    parse_property_details ["3 Beds"] = ⟨some 3, none, none, none⟩ ∧
    parse_property_details ["2 Bath"] = ⟨none, some 2, none, none⟩ ∧
    parse_property_details ["120m²"] = ⟨none, none, none, some 120⟩ := by
  refine ⟨fun c h1 h2 => ?_, fun c h1 h2 => ?_, fun c h1 h2 h3 => ?_,
    fun c h1 h2 h3 h4 => ?_, fun c h1 h2 h3 h4 => ?_,
    fun d c h1 h2 h3 h4 => ?_, by decide, by decide, by decide⟩ <;>
    simp [parse_property_details, detailsStep, countToken, h1, h2] <;>
    simp [*]

/-- Witness for C8 at the spec's example chips plus a no-keyword chip. -/
theorem parse_property_details_classify_witness :
    parse_property_details ["3 Beds"] = ⟨some (pyInt (splitHead "3 Beds")), none, none, none⟩ ∧
    parse_property_details ["Beds"] = ⟨none, none, none, none⟩ ∧
    detailsStep ⟨some 7, none, none, none⟩ "nice view" = ⟨some 7, none, none, none⟩ :=
  ⟨(parse_property_details_classify).1 "3 Beds" (by decide) (by decide),
   (parse_property_details_classify).2.1 "Beds" (by decide) (by decide),
   (parse_property_details_classify).2.2.2.2.2.1 ⟨some 7, none, none, none⟩
     "nice view" (by decide) (by decide) (by decide) (by decide)⟩

/-- C10: the feature classifier assigns at most one field per chip, testing
the keywords in the order Beds, Bath, Parking, m² (a chip matching an earlier
keyword updates only that earlier field), and when several chips match the
same keyword the last matching chip determines the stored value. -/
theorem parse_property_details_priority_lastwins :
    (∀ d c, strContains c "Beds" = true → strContains c "Bath" = true →
      detailsStep d c = { d with bedrooms := countToken c }) ∧
    (∀ d c, strContains c "Beds" = false → strContains c "Bath" = true →
      strContains c "Parking" = true →
      detailsStep d c = { d with baths := countToken c }) ∧
    (∀ d c, strContains c "Beds" = false → strContains c "Bath" = false →
      strContains c "Parking" = true → strContains c "m²" = true →
      detailsStep d c = { d with parking := countToken c }) ∧
    (∀ cs c, strContains c "Beds" = true →
      (parse_property_details (cs ++ [c])).bedrooms = countToken c) ∧
    (∀ cs c, strContains c "Beds" = false → strContains c "Bath" = true →
      (parse_property_details (cs ++ [c])).baths = countToken c) ∧
    (∀ cs c, strContains c "Beds" = false → strContains c "Bath" = false →
      strContains c "Parking" = true →
      (parse_property_details (cs ++ [c])).parking = countToken c) ∧
    (∀ cs c, strContains c "Beds" = false → strContains c "Bath" = false →
      strContains c "Parking" = false → strContains c "m²" = true →
      (parse_property_details (cs ++ [c])).area = areaToken c) := by
  refine ⟨fun d c h1 h2 => ?_, fun d c h1 h2 h3 => ?_, fun d c h1 h2 h3 h4 => ?_,
    fun cs c h1 => ?_, fun cs c h1 h2 => ?_, fun cs c h1 h2 h3 => ?_,
    fun cs c h1 h2 h3 h4 => ?_⟩ <;>
    simp [parse_property_details, detailsStep, List.foldl_append, *]

/-- Witness for C10: a chip containing both `"Beds"` and `"Bath"` updates only
bedrooms, and a later `"Beds"` chip overwrites an earlier one. -/
theorem parse_property_details_priority_lastwins_witness :
    detailsStep ⟨none, some 9, some 9, some 9⟩ "4 Beds 2 Bath" =
      { (⟨none, some 9, some 9, some 9⟩ : Details) with bedrooms := countToken "4 Beds 2 Bath" } ∧
    (parse_property_details (["3 Beds"] ++ ["5 Beds"])).bedrooms = countToken "5 Beds" :=
  ⟨(parse_property_details_priority_lastwins).1 ⟨none, some 9, some 9, some 9⟩
     "4 Beds 2 Bath" (by decide) (by decide),
   (parse_property_details_priority_lastwins).2.2.2.1 ["3 Beds"] "5 Beds" (by decide)⟩

/-- C1 (amended): `parse_html` is total (the `try`/`except` always yields a
record), and when an unexpected error occurs at step `k` the returned record
keeps the fields assigned by the steps before `k` (equal to those of the
error-free run) while the fields of step `k` and all later steps are null —
the record is all-null only when the error occurs in the first step. -/
theorem parse_html_error_keeps_earlier_fields (html : Html) (k : Nat) :
    (parse_html html (some k)).sale_type
        = (if 1 ≤ k then (parse_html html none).sale_type else none) ∧
    (parse_html html (some k)).sale_date
        = (if 1 ≤ k then (parse_html html none).sale_date else none) ∧
    (parse_html html (some k)).price
        = (if 2 ≤ k then (parse_html html none).price else none) ∧
    (parse_html html (some k)).address
        = (if 3 ≤ k then (parse_html html none).address else none) ∧
    (parse_html html (some k)).postcode
        = (if 3 ≤ k then (parse_html html none).postcode else none) ∧
    (parse_html html (some k)).bedrooms
        = (if 4 ≤ k then (parse_html html none).bedrooms else none) ∧
    (parse_html html (some k)).baths
        = (if 4 ≤ k then (parse_html html none).baths else none) ∧
    (parse_html html (some k)).parking
        = (if 4 ≤ k then (parse_html html none).parking else none) ∧
    (parse_html html (some k)).area
        = (if 4 ≤ k then (parse_html html none).area else none) ∧
    (parse_html html (some k)).sales_page_href
        = (if 5 ≤ k then (parse_html html none).sales_page_href else none) := by
  rcases k with _ | _ | _ | _ | _ | k
  · rcases hae : html.addressElem with _ | a <;> simp [parse_html, emptyExtracted, hae]
  · rcases hae : html.addressElem with _ | a <;> simp [parse_html, emptyExtracted, hae]
  · rcases hae : html.addressElem with _ | a <;> simp [parse_html, emptyExtracted, hae]
  · rcases hae : html.addressElem with _ | a <;> simp [parse_html, emptyExtracted, hae]
  · rcases hae : html.addressElem with _ | a <;> simp [parse_html, emptyExtracted, hae]
  · have h0 : ¬ (k + 5 = 0) := by omega
    have h1 : ¬ (k + 5 = 1) := by omega
    have h2 : ¬ (k + 5 = 2) := by omega
    have h3 : ¬ (k + 5 = 3) := by omega
    have h4 : ¬ (k + 5 = 4) := by omega
    have g1 : 1 ≤ k + 5 := by omega
    have g2 : 2 ≤ k + 5 := by omega
    have g3 : 3 ≤ k + 5 := by omega
    have g4 : 4 ≤ k + 5 := by omega
    have g5 : 5 ≤ k + 5 := by omega
    rcases hae : html.addressElem with _ | a <;>
      simp [parse_html, emptyExtracted, hae, Option.some.injEq,
        h0, h1, h2, h3, h4, g1, g2, g3, g4, g5]

/-- C1 counterexample: with a sale-info element reading `"Sold"` and an
internal error occurring in the price step (step 1), `parse_html` returns a
record whose `sale_type` is `"Sold"`, not the all-null default record the
claim requires on any internal error. -/
theorem parse_html_error_not_all_null :
    parse_html ⟨some "Sold", none, none, [], none⟩ (some 1) ≠ emptyExtracted := by
  decide

/-- The pages requested for one combination form a contiguous initial range. -/
lemma pagesRequested_shape (f : Nat → Option String) :
    ∀ fuel start, ∃ k, k ≤ fuel ∧ pagesRequested f fuel start = List.range' start k := by
  intro fuel
  induction fuel with
  | zero => exact fun start => ⟨0, Nat.le_refl 0, rfl⟩
  | succ n ih =>
    intro start
    obtain ⟨k, hk, he⟩ := ih (start + 1)
    unfold pagesRequested
    cases hf : f start with
    | none =>
      exact ⟨k + 1, by omega, by rw [List.range'_succ]; simp [he]⟩
    | some txt =>
      by_cases hm : (pyTruthy txt && hasMarker txt) = true
      · exact ⟨1, by omega, by simp [hm]⟩
      · exact ⟨k + 1, by omega, by rw [List.range'_succ]; simp [hm, he]⟩

/-- Every requested page is at or past the starting page. -/
lemma pagesRequested_lb {f : Nat → Option String} {fuel start p : Nat}
    (hp : p ∈ pagesRequested f fuel start) : start ≤ p := by
  obtain ⟨k, _, he⟩ := pagesRequested_shape f fuel start
  rw [he] at hp
  exact (List.mem_range'_1.mp hp).1

/-- After a truthy response containing the marker, no later page is requested. -/
lemma pagesRequested_stop (f : Nat → Option String) :
    ∀ fuel start p t, p ∈ pagesRequested f fuel start → f p = some t →
      (pyTruthy t && hasMarker t) = true →
      ∀ q, p < q → q ∉ pagesRequested f fuel start := by
  intro fuel
  induction fuel with
  | zero => intro start p t hp; simp [pagesRequested] at hp
  | succ n ih =>
    intro start p t hp hf hm q hq
    by_cases hps : p = start
    · subst hps
      intro hq2
      unfold pagesRequested at hq2
      simp only [hf, hm] at hq2
      simp [List.mem_cons] at hq2
      omega
    · unfold pagesRequested at hp
      rcases List.mem_cons.mp hp with h | h
      · exact absurd h hps
      cases hfs : f start with
      | none =>
        rw [hfs] at h
        intro hq2
        unfold pagesRequested at hq2
        rw [hfs] at hq2
        rcases List.mem_cons.mp hq2 with h2 | h2
        · have := pagesRequested_lb h
          omega
        · exact ih (start + 1) p t h hf hm q hq h2
      | some t0 =>
        rw [hfs] at h
        by_cases hm0 : (pyTruthy t0 && hasMarker t0) = true
        · simp [hm0] at h
        · simp only [hm0, if_neg, Bool.not_eq_true] at h
          simp only [Bool.not_eq_true] at hm0
          intro hq2
          unfold pagesRequested at hq2
          rw [hfs] at hq2
          simp only [hm0] at hq2
          rcases List.mem_cons.mp hq2 with h2 | h2
          · have := pagesRequested_lb h
            omega
          · exact ih (start + 1) p t h hf hm q hq h2

/-- A null fetch result does not stop paging: the next page is requested. -/
lemma pagesRequested_none_continues (f : Nat → Option String) :
    ∀ fuel start p, p ∈ pagesRequested f fuel start → f p = none →
      p + 1 < start + fuel → p + 1 ∈ pagesRequested f fuel start := by
  intro fuel
  induction fuel with
  | zero => intro start p hp; simp [pagesRequested] at hp
  | succ n ih =>
    intro start p hp hf hlt
    unfold pagesRequested at hp
    rcases List.mem_cons.mp hp with h | h
    · subst h
      cases n with
      | zero => omega
      | succ m =>
        unfold pagesRequested
        simp only [hf, List.mem_cons]
        right
        simp [pagesRequested]
    · cases hfs : f start with
      | none =>
        rw [hfs] at h
        have h2 := ih (start + 1) p h hf (by omega)
        unfold pagesRequested
        rw [hfs]
        exact List.mem_cons.mpr (Or.inr h2)
      | some t0 =>
        rw [hfs] at h
        by_cases hm0 : (pyTruthy t0 && hasMarker t0) = true
        · simp [hm0] at h
        · simp only [if_neg hm0] at h
          have h2 := ih (start + 1) p h hf (by omega)
          unfold pagesRequested
          rw [hfs]
          refine List.mem_cons.mpr (Or.inr ?_)
          dsimp only
          rw [if_neg hm0]
          exact h2

/-- A response containing the (non-empty) marker is itself non-empty. -/
lemma hasMarker_truthy {t : String} (h : hasMarker t = true) : pyTruthy t = true := by
  have h2 : listHasSub "No exact matches".toList t.toList = true := h
  cases ht : t.toList with
  | nil =>
    rw [ht] at h2
    exact absurd h2 (by decide)
  | cons c cs =>
    unfold pyTruthy
    rw [ht]
    rfl

/-- C3: for every combination, pages are requested in increasing order from 1
with a hard cap of 49 (the requested pages form `List.range' 1 k` with
`k ≤ 49`); once a fetched page contains the no-results marker no later page is
requested; a null fetch does not stop paging — the next page is requested. -/
theorem enumerator_paging (f : Nat → Option String) :
    (∃ k, k ≤ 49 ∧ pagesRequested f 49 1 = List.range' 1 k) ∧
    (∀ p t, p ∈ pagesRequested f 49 1 → f p = some t → hasMarker t = true →
      ∀ q, p < q → q ∉ pagesRequested f 49 1) ∧
    (∀ p, p ∈ pagesRequested f 49 1 → f p = none → p < 49 →
      p + 1 ∈ pagesRequested f 49 1) := by
  refine ⟨pagesRequested_shape f 49 1, ?_, ?_⟩
  · intro p t hp hf hmk q hq
    exact pagesRequested_stop f 49 1 p t hp hf
      (by simp [hasMarker_truthy hmk, hmk]) q hq
  · intro p hp hf hlt
    exact pagesRequested_none_continues f 49 1 p hp hf (by omega)

/-- Witness for C3: page 1 fails (null) yet page 2 is requested; page 2
carries the marker, so page 3 is never requested. -/
theorem enumerator_paging_witness :
    (∃ k, k ≤ 49 ∧
      pagesRequested (fun p => if p = 1 then none else
        if p = 2 then some "No exact matches" else some "x") 49 1 =
        List.range' 1 k) ∧
    2 ∈ pagesRequested (fun p => if p = 1 then none else
      if p = 2 then some "No exact matches" else some "x") 49 1 ∧
    3 ∉ pagesRequested (fun p => if p = 1 then none else
      if p = 2 then some "No exact matches" else some "x") 49 1 :=
  ⟨(enumerator_paging _).1,
   (enumerator_paging _).2.2 1 (by decide) (by decide) (by decide),
   (enumerator_paging _).2.1 2 "No exact matches" (by decide) (by decide)
     (by decide) 3 (by decide)⟩

/-- A nonempty, marker-free, successfully fetched page not preceded by a
marker page in its combination is collected by the page loop. -/
lemma pagesLoop_mem (f : Nat → Option String) :
    ∀ fuel start page txt, start ≤ page → page < start + fuel →
      f page = some txt → pyTruthy txt = true → hasMarker txt = false →
      (∀ q t, start ≤ q → q < page → f q = some t → hasMarker t = false) →
      txt ∈ pagesLoop f fuel start := by
  intro fuel
  induction fuel with
  | zero => intro start page txt h1 h2; omega
  | succ n ih =>
    intro start page txt hsp hub hf htr hnm hprev
    unfold pagesLoop
    by_cases hse : page = start
    · subst hse
      simp only [hf, htr, hnm]
      simp
    · have hlt : start < page := by omega
      cases hfs : f start with
      | none =>
        exact ih (start + 1) page txt (by omega) (by omega) hf htr hnm
          (fun q t hq1 hq2 hq3 => hprev q t (by omega) hq2 hq3)
      | some t0 =>
        have hm0 : hasMarker t0 = false := hprev start t0 (Nat.le_refl start) hlt hfs
        have hrec := ih (start + 1) page txt (by omega) (by omega) hf htr hnm
          (fun q t hq1 hq2 hq3 => hprev q t (by omega) hq2 hq3)
        cases htr0 : pyTruthy t0 with
        | false => simp only [htr0]; exact hrec
        | true =>
          simp only [htr0, hm0]
          simp only [if_true, if_false, Bool.false_eq_true]
          exact List.mem_cons.mpr (Or.inr hrec)

/-- C2 (amended): every successfully fetched page whose text is non-empty and
does not contain the no-results marker, and whose combination did not hit the
marker on an earlier page, is appended to the enumerator's returned sequence.
(A successfully fetched page that contains the marker — or is empty — is not
appended.) -/
theorem fetch_postcode_appends_nonmarker_pages
    (f : Nat → Nat → Nat → Nat → Option String) (beds bath park page : Nat)
    (txt : String)
    (hb1 : 1 ≤ beds) (hb2 : beds ≤ 5) (hba : bath ≤ 5) (hpk : park ≤ 5)
    (hp1 : 1 ≤ page) (hp2 : page ≤ 49)
    (hf : f beds bath park page = some txt) (htr : pyTruthy txt = true)
    (hnm : hasMarker txt = false)
    (hprev : ∀ q t, 1 ≤ q → q < page → f beds bath park q = some t →
      hasMarker t = false) :
    txt ∈ fetch_postcode_data f := by
  unfold fetch_postcode_data
  refine List.mem_flatMap.mpr ⟨beds, List.mem_range'_1.mpr ⟨hb1, by omega⟩,
    List.mem_flatMap.mpr ⟨bath, List.mem_range.mpr (by omega),
      List.mem_flatMap.mpr ⟨park, List.mem_range.mpr (by omega), ?_⟩⟩⟩
  exact pagesLoop_mem (f beds bath park) 49 1 page txt hp1 (by omega) hf htr hnm
    (fun q t hq1 hq2 hq3 => hprev q t hq1 hq2 hq3)

/-- C2 counterexample: with an oracle on which every fetch succeeds but every
page reads `"No exact matches found"` (respectively the empty string), the
enumerator returns the empty sequence, so the successfully fetched page texts
are not appended. -/
theorem fetch_postcode_drops_successful_pages :
    fetch_postcode_data (fun _ _ _ _ => some "No exact matches found") = [] ∧
    (fun _ _ _ _ => (some "No exact matches found" : Option String)) 1 0 0 1 ≠ none ∧
    fetch_postcode_data (fun _ _ _ _ => some "") = [] ∧
    (fun _ _ _ _ => (some "" : Option String)) 1 0 0 1 ≠ none :=
  ⟨rfl, by decide, rfl, by decide⟩

/-- Witness for C2: a successful, non-empty, marker-free page 1 is returned. -/
theorem fetch_postcode_appends_witness :
    "listing page" ∈ fetch_postcode_data (fun _ _ _ _ => some "listing page") :=
  fetch_postcode_appends_nonmarker_pages (fun _ _ _ _ => some "listing page")
    1 0 0 1 "listing page" (by decide) (by decide) (by decide) (by decide)
    (by decide) (by decide) (by decide) (by decide) (by decide)
    (fun q t hq1 hq2 hq3 => by omega)

/-- Powers of two are at least one over the rationals. -/
lemma one_le_two_pow_rat : ∀ n : Nat, (1 : ℚ) ≤ 2 ^ n := by
  intro n
  induction n with
  | zero => norm_num
  | succ m ih => rw [pow_succ]; nlinarith

/-- On an all-failing oracle the retry loop issues one request per remaining
attempt, sleeps `2^attempt + jitter` before each next iteration, and ends with
a null value. -/
lemma fetchRun_all_fail (result : Nat → Option String) (jitter : Nat → ℚ)
    (hfail : ∀ i, result i = none) :
    ∀ r a, (fetchRun result jitter r a).value = none ∧
      (fetchRun result jitter r a).requests = r ∧
      (fetchRun result jitter r a).delays.length = r ∧
      (∀ k, k < r → (fetchRun result jitter r a).delays[k]? =
        some (2 ^ (a + 1 + k) + jitter (a + 1 + k))) := by
  intro r
  induction r with
  | zero => intro a; refine ⟨rfl, rfl, rfl, fun k hk => by omega⟩
  | succ n ih =>
    intro a
    obtain ⟨hv, hr, hl, hd⟩ := ih (a + 1)
    unfold fetchRun
    rw [hfail a]
    refine ⟨hv, by simp [hr], by simp [hl], fun k hk => ?_⟩
    cases k with
    | zero => simp
    | succ j =>
      simp only [List.getElem?_cons_succ]
      have harg : a + 1 + 1 + j = a + 1 + (j + 1) := by omega
      rw [hd j (by omega), harg]

/-- C4: on a URL for which every request fails, the fetch client issues
exactly `retries` GET requests (default 5) and returns null; the backoff delay
recorded before each retry is `2^attempt + jitter(attempt)` with the attempt
counter already incremented; with each jitter in `[0, 1/10)` the successive
delays are monotonically non-decreasing (hence also in expectation). -/
theorem fetch_retry_exhaustion (result : Nat → Option String) (jitter : Nat → ℚ)
    (retries : Nat) (hfail : ∀ i, result i = none)
    (hjit : ∀ i, 0 ≤ jitter i ∧ jitter i < 1 / 10) :
    (fetch_property_data result jitter retries).value = none ∧
    (fetch_property_data result jitter retries).requests = retries ∧
    (fetch_property_data result jitter retries).delays.length = retries ∧
    (∀ k, k < retries →
      (fetch_property_data result jitter retries).delays[k]? =
        some (2 ^ (k + 1) + jitter (k + 1))) ∧
    (∀ k x y,
      (fetch_property_data result jitter retries).delays[k]? = some x →
      (fetch_property_data result jitter retries).delays[k + 1]? = some y →
      x ≤ y) := by
  obtain ⟨hv, hr, hl, hd⟩ := fetchRun_all_fail result jitter hfail retries 0
  have hd0 : ∀ k, k < retries →
      (fetch_property_data result jitter retries).delays[k]? =
        some (2 ^ (k + 1) + jitter (k + 1)) := by
    intro k hk
    have harg : 0 + 1 + k = k + 1 := by omega
    rw [fetch_property_data, hd k hk, harg]
  refine ⟨hv, hr, hl, hd0, fun k x y hx hy => ?_⟩
  have hk1 : k + 1 < retries := by
    by_contra hcon
    rw [fetch_property_data] at hy
    rw [List.getElem?_eq_none (by omega : (fetchRun result jitter retries 0).delays.length ≤ k + 1)] at hy
    exact Option.noConfusion hy
  have hx2 := hd0 k (by omega)
  have hy2 := hd0 (k + 1) (by omega)
  rw [hx] at hx2
  rw [hy] at hy2
  injection hx2 with hx2
  injection hy2 with hy2
  subst hx2
  subst hy2
  have hpow : (2 : ℚ) ^ (k + 1 + 1) = 2 * 2 ^ (k + 1) := by rw [pow_succ]; ring
  have h1 : (1 : ℚ) ≤ 2 ^ (k + 1) := one_le_two_pow_rat (k + 1)
  have hj1 := hjit (k + 1)
  have hj2 := hjit (k + 1 + 1)
  rw [hpow]
  nlinarith [hj1.1, hj1.2, hj2.1, hj2.2]

/-- Witness for C4 at the default retry count 5 with zero jitter. -/
theorem fetch_retry_exhaustion_witness :
    (fetch_property_data (fun _ => none) (fun _ => 0) 5).value = none ∧
    (fetch_property_data (fun _ => none) (fun _ => 0) 5).requests = 5 ∧
    (fetch_property_data (fun _ => none) (fun _ => 0) 5).delays.length = 5 := by
  have h := fetch_retry_exhaustion (fun _ => none) (fun _ => 0) 5
    (fun i => rfl) (fun i => ⟨le_refl 0, by norm_num⟩)
  exact ⟨h.1, h.2.1, h.2.2.1⟩

/-- Inserting a batch appends exactly the affinity-converted rows, with ids
continuing the autoincrement sequence. -/
lemma insert_data_rows :
    ∀ (data : List ExtractedData) (db : DomainTable),
      (insert_data db data).rows = db.rows ++ rowsFrom db.rows.length data := by
  intro data
  induction data with
  | nil => intro db; simp [insert_data, rowsFrom]
  | cons r rest ih =>
    intro db
    have h1 : insert_data db (r :: rest) = insert_data (insertOne db r) rest := rfl
    rw [h1, ih]
    simp [insertOne, rowsFrom, List.append_assoc]

/-- Length of a generated row block. -/
lemma rowsFrom_length : ∀ (data : List ExtractedData) (base : Nat),
    (rowsFrom base data).length = data.length := by
  intro data
  induction data with
  | nil => intro base; rfl
  | cons r rest ih => intro base; simp [rowsFrom, ih]

/-- Indexing into a generated row block. -/
lemma rowsFrom_getElem : ∀ (data : List ExtractedData) (base i : Nat),
    (rowsFrom base data)[i]? =
      (data[i]?).map (fun r => (base + i + 1, applyAffinities (toSqlRow r))) := by
  intro data
  induction data with
  | nil => intro base i; simp [rowsFrom]
  | cons r rest ih =>
    intro base i
    cases i with
    | zero => simp [rowsFrom]
    | succ j =>
      simp only [rowsFrom, List.getElem?_cons_succ, ih (base + 1) j]
      have harg : base + 1 + j = base + (j + 1) := by omega
      rw [harg]

/-- C9: inserting N fully populated extracted records as one batch into a
fresh `Domain` table and reading them back yields exactly N rows, in order,
whose ids are 1..N and whose ten non-identity values are the inserted values
converted by the declared column affinities; in particular every text field
of a populated record reads back unchanged, every count reads back as the
same integer, and a digit-string postcode reads back widened to its integer
value (the only declared type widening). -/
theorem domain_insert_roundtrip (records : List ExtractedData)
    (hpop : ∀ r ∈ records, fullyPopulated r = true) :
    (selectRows (insert_data (create_table none) records)).length = records.length ∧
    (∀ i r, records[i]? = some r →
      (selectRows (insert_data (create_table none) records))[i]? =
        some (i + 1, applyAffinities (toSqlRow r))) ∧
    (∀ r st, r.sale_type = some st →
      (applyAffinities (toSqlRow r))[0]? = some (SqlValue.textV st)) ∧
    (∀ r sd, r.sale_date = some sd →
      (applyAffinities (toSqlRow r))[1]? = some (SqlValue.textV sd)) ∧
    (∀ r (p : Nat), r.price = some p →
      (applyAffinities (toSqlRow r))[2]? = some (SqlValue.intV p)) ∧
    (∀ r ad, r.address = some ad →
      (applyAffinities (toSqlRow r))[3]? = some (SqlValue.textV ad)) ∧
    (∀ r pc, r.postcode = some pc →
      (applyAffinities (toSqlRow r))[4]? =
        some (if pyIsDigit pc then SqlValue.intV (pyInt pc) else SqlValue.textV pc)) ∧
    (∀ r (b : Nat), r.bedrooms = some b →
      (applyAffinities (toSqlRow r))[5]? = some (SqlValue.intV b)) ∧
    (∀ r (b : Nat), r.baths = some b →
      (applyAffinities (toSqlRow r))[6]? = some (SqlValue.intV b)) ∧
    (∀ r (p : Nat), r.parking = some p →
      (applyAffinities (toSqlRow r))[7]? = some (SqlValue.intV p)) ∧
    (∀ r (a : Nat), r.area = some a →
      (applyAffinities (toSqlRow r))[8]? = some (SqlValue.intV a)) ∧
    (∀ r h, r.sales_page_href = some h →
      (applyAffinities (toSqlRow r))[9]? = some (SqlValue.textV h)) := by
  have hrows : (insert_data (create_table none) records).rows = rowsFrom 0 records := by
    rw [insert_data_rows records (create_table none)]
    rfl
  refine ⟨?_, ?_, ?_, ?_, ?_, ?_, ?_, ?_, ?_, ?_, ?_, ?_⟩
  · rw [selectRows, hrows, rowsFrom_length]
  · intro i r hir
    rw [selectRows, hrows, rowsFrom_getElem records 0 i, hir]
    simp only [Option.map_some']
    have harg : 0 + i + 1 = i + 1 := by omega
    rw [harg]
  all_goals intro r v hv
  all_goals
    simp [applyAffinities, toSqlRow, domainAffinities, textAffinity,
      integerAffinity, hv]

/-- Witness for C9: a single fully populated record round-trips, and its
digit-string postcode is stored under INTEGER affinity. -/
theorem domain_insert_roundtrip_witness :
    (selectRows (insert_data (create_table none)
      [⟨some "Sold", some "12 Jan 2023", some 1250000,
        some "12 Smith St, Ultimo 2007", some "2007", some 3, some 2, some 1,
        some 120, some "/p"⟩])).length = 1 ∧
    (selectRows (insert_data (create_table none)
      [⟨some "Sold", some "12 Jan 2023", some 1250000,
        some "12 Smith St, Ultimo 2007", some "2007", some 3, some 2, some 1,
        some 120, some "/p"⟩]))[0]? =
      some (1, applyAffinities (toSqlRow
        ⟨some "Sold", some "12 Jan 2023", some 1250000,
         some "12 Smith St, Ultimo 2007", some "2007", some 3, some 2, some 1,
         some 120, some "/p"⟩)) ∧
    (applyAffinities (toSqlRow
      ⟨some "Sold", some "12 Jan 2023", some 1250000,
       some "12 Smith St, Ultimo 2007", some "2007", some 3, some 2, some 1,
       some 120, some "/p"⟩))[4]? =
      some (if pyIsDigit "2007" then SqlValue.intV (pyInt "2007")
            else SqlValue.textV "2007") := by
  have h := domain_insert_roundtrip
    [⟨some "Sold", some "12 Jan 2023", some 1250000,
      some "12 Smith St, Ultimo 2007", some "2007", some 3, some 2, some 1,
      some 120, some "/p"⟩] (by decide)
  exact ⟨h.1, h.2.1 0 _ rfl, h.2.2.2.2.2.2.1 _ "2007" rfl⟩

/-- A two-digit-day match is a date pattern and a prefix of its input. -/
lemma matchDate2_shape {l m : List Char} (h : matchDate2 l = some m) :
    isDatePattern m = true ∧ m.isPrefixOf l = true := by
  unfold matchDate2 at h
  split at h
  · rename_i a b c w1 w2 w3 d y1 y2 y3 y4 tail
    split at h
    · rename_i hc
      injection h with h
      subst h
      refine ⟨by simp [isDatePattern, hc], ?_⟩
      simp [List.isPrefixOf]
    · exact Option.noConfusion h
  · exact Option.noConfusion h

/-- A one-digit-day match is a date pattern and a prefix of its input. -/
lemma matchDate1_shape {l m : List Char} (h : matchDate1 l = some m) :
    isDatePattern m = true ∧ m.isPrefixOf l = true := by
  unfold matchDate1 at h
  split at h
  · rename_i a c w1 w2 w3 d y1 y2 y3 y4 tail
    split at h
    · rename_i hc
      injection h with h
      subst h
      refine ⟨by simp [isDatePattern, hc], ?_⟩
      simp [List.isPrefixOf]
    · exact Option.noConfusion h
  · exact Option.noConfusion h

/-- A match at one position is a date pattern and a prefix of the input. -/
lemma matchDateAt_shape {l m : List Char} (h : matchDateAt l = some m) :
    isDatePattern m = true ∧ m.isPrefixOf l = true := by
  unfold matchDateAt at h
  cases h2 : matchDate2 l with
  | some m2 =>
    rw [h2] at h
    injection h with h
    subst h
    exact matchDate2_shape h2
  | none =>
    rw [h2] at h
    exact matchDate1_shape h

/-- A list satisfying the two-digit-day shape has exactly eleven elements. -/
lemma date2shape_elim {m : List Char} (hm : date2shape m = true) :
    ∃ a b c w1 w2 w3 d y1 y2 y3 y4,
      m = [a, b, c, w1, w2, w3, d, y1, y2, y3, y4] := by
  unfold date2shape at hm
  split at hm
  · rename_i a b c w1 w2 w3 d y1 y2 y3 y4
    exact ⟨a, b, c, w1, w2, w3, d, y1, y2, y3, y4, rfl⟩
  · exact absurd hm (by simp)

/-- A list satisfying the one-digit-day shape has exactly ten elements, the
second of which is the space. -/
lemma date1shape_elim {m : List Char} (hm : date1shape m = true) :
    ∃ a c w1 w2 w3 d y1 y2 y3 y4,
      m = [a, c, w1, w2, w3, d, y1, y2, y3, y4] ∧ c = ' ' := by
  unfold date1shape at hm
  split at hm
  · rename_i a c w1 w2 w3 d y1 y2 y3 y4
    simp only [Bool.and_eq_true, decide_eq_true_eq] at hm
    exact ⟨a, c, w1, w2, w3, d, y1, y2, y3, y4, rfl, hm.1.1.1.1.1.1.1.1.2⟩
  · exact absurd hm (by simp)

/-- Wherever a date pattern sits at the head of the input, the positional
matcher succeeds. -/
lemma matchDateAt_of_leading {m l : List Char} (hm : isDatePattern m = true)
    (hp : m.isPrefixOf l = true) : matchDateAt l ≠ none := by
  obtain ⟨rest, rfl⟩ := isPrefixOf_exists_append hp
  simp only [isDatePattern, Bool.or_eq_true] at hm
  rcases hm with hm | hm
  · obtain ⟨a, b, c, w1, w2, w3, d, y1, y2, y3, y4, rfl⟩ := date2shape_elim hm
    have h3 : matchDate2 (a :: b :: c :: w1 :: w2 :: w3 :: d :: y1 :: y2 :: y3
        :: y4 :: rest) = some [a, b, c, w1, w2, w3, d, y1, y2, y3, y4] := by
      simp [matchDate2, hm]
    intro hcon
    simp only [List.cons_append, List.nil_append] at hcon
    simp [matchDateAt, h3] at hcon
  · obtain ⟨a, c, w1, w2, w3, d, y1, y2, y3, y4, rfl, hc⟩ := date1shape_elim hm
    subst hc
    have h2 : matchDate2 (a :: ' ' :: w1 :: w2 :: w3 :: d :: y1 :: y2 :: y3
        :: y4 :: rest) = none := by
      cases rest with
      | nil => simp [matchDate2]
      | cons r rs =>
        simp [matchDate2, date2shape,
          show (' ' : Char).isDigit = false from by decide]
    have h3 : matchDate1 (a :: ' ' :: w1 :: w2 :: w3 :: d :: y1 :: y2 :: y3
        :: y4 :: rest) = some [a, ' ', w1, w2, w3, d, y1, y2, y3, y4] := by
      simp [matchDate1, hm]
    intro hcon
    simp only [List.cons_append, List.nil_append] at hcon
    simp [matchDateAt, h2, h3] at hcon

/-- What the leftmost search returns matches the date pattern and occurs in
the input. -/
lemma searchDate_some_shape :
    ∀ l d, searchDate l = some d → isDatePattern d = true ∧ listHasSub d l = true := by
  intro l
  induction l with
  | nil => intro d h; exact Option.noConfusion h
  | cons c t ih =>
    intro d h
    unfold searchDate at h
    cases hmt : matchDateAt (c :: t) with
    | some m =>
      rw [hmt] at h
      injection h with h
      subst h
      obtain ⟨h1, h2⟩ := matchDateAt_shape hmt
      exact ⟨h1, by simp [listHasSub, h2]⟩
    | none =>
      rw [hmt] at h
      obtain ⟨h1, h2⟩ := ih d h
      exact ⟨h1, by simp [listHasSub, h2]⟩

/-- When the leftmost search fails, no substring of the input matches the
date pattern. -/
lemma searchDate_none_no_sub :
    ∀ l, searchDate l = none → ∀ m, isDatePattern m = true → listHasSub m l = false := by
  intro l
  induction l with
  | nil =>
    intro _ m hm
    unfold listHasSub
    cases m with
    | nil => simp [isDatePattern, date2shape, date1shape] at hm
    | cons c t => simp
  | cons c t ih =>
    intro h m hm
    have h1 : matchDateAt (c :: t) = none := by
      unfold searchDate at h
      cases hmt : matchDateAt (c :: t) with
      | some m2 => rw [hmt] at h; exact Option.noConfusion h
      | none => rfl
    have h2 : searchDate t = none := by
      unfold searchDate at h
      rw [h1] at h
      exact h
    unfold listHasSub
    rw [ih h2 m hm]
    cases hp : m.isPrefixOf (c :: t) with
    | false => simp
    | true => exact absurd h1 (matchDateAt_of_leading hm hp)

/-- C7: with no sale-info element both fields are null; with text containing
no date-pattern match the sale type is the full stripped text and the date is
null; with a date match the date is the matched substring and the sale type is
the text with that substring removed and re-stripped.  The search model is
faithful: a returned match is a `\d{1,2} \w{3} \d{4}` pattern occurring in the
text, and a failed search means no substring matches the pattern.
`"Sold 12 Jan 2023"` splits into `"Sold"` and `"12 Jan 2023"`. -/
theorem parse_sale_info_split :
    parse_sale_info none = (none, none) ∧
    (∀ raw, searchDate (pyStrip raw).toList = none →
      parse_sale_info (some raw) = (some (pyStrip raw), none)) ∧
    (∀ raw d, searchDate (pyStrip raw).toList = some d →
      parse_sale_info (some raw) =
        (some (pyStrip (pyReplace (pyStrip raw) (String.mk d) "")),
         some (String.mk d))) ∧
    (∀ l d, searchDate l = some d →
      isDatePattern d = true ∧ listHasSub d l = true) ∧
    (∀ l, searchDate l = none →
      ∀ m, isDatePattern m = true → listHasSub m l = false) ∧
    parse_sale_info (some "Sold 12 Jan 2023") = (some "Sold", some "12 Jan 2023") := by
  refine ⟨rfl, fun raw h => ?_, fun raw d h => ?_,
    searchDate_some_shape, searchDate_none_no_sub, by decide⟩
  · have h2 : searchDate (pyStrip raw).data = none := h
    simp [parse_sale_info, h2]
  · have h2 : searchDate (pyStrip raw).data = some d := h
    simp [parse_sale_info, h2]

/-- Witness for C7 at the spec's example and at a dateless text. -/
theorem parse_sale_info_split_witness :
    parse_sale_info (some "Sold 12 Jan 2023") =
      (some (pyStrip (pyReplace (pyStrip "Sold 12 Jan 2023")
        (String.mk ['1', '2', ' ', 'J', 'a', 'n', ' ', '2', '0', '2', '3']) "")),
       some (String.mk ['1', '2', ' ', 'J', 'a', 'n', ' ', '2', '0', '2', '3'])) ∧
    parse_sale_info (some "Auction") = (some (pyStrip "Auction"), none) ∧
    isDatePattern ['1', '2', ' ', 'J', 'a', 'n', ' ', '2', '0', '2', '3'] = true :=
  ⟨(parse_sale_info_split).2.2.1 "Sold 12 Jan 2023"
     ['1', '2', ' ', 'J', 'a', 'n', ' ', '2', '0', '2', '3'] (by decide),
   (parse_sale_info_split).2.1 "Auction" (by decide),
   ((parse_sale_info_split).2.2.2.1 "Sold 12 Jan 2023".toList
     ['1', '2', ' ', 'J', 'a', 'n', ' ', '2', '0', '2', '3'] (by decide)).1⟩
